import Mathlib

/-!
Shallow embedding of the noc-dashboard scanner core
(`src/scanner/scanner.py` and `src/scanner/pcap_parser.py`) together with
theorems settling the specification's claims about it.

Conventions used throughout:
* Python dicts with a fixed key set become structures; a key that a code path
  may or may not add becomes an `Option` field (`none` = key absent).
* Python machine timestamps become `ℚ` (packet times are decimal seconds).
* Fallible providers (scapy `srp`, `nmap` calls) are passed in as
  `Except`-valued inputs; the `try/except` wrappers in the source become
  `match` on that value.
* `datetime.now()` strings are threaded in as an explicit `now : String`.
-/

namespace PCAPAnalyzer

/-- Decoded packet record: the fields of a scapy packet that
`pcap_parser.py` consumes.  `hasIP`/`hasTCP`/… model the `X in packet`
layer tests; `dnsQd` models `packet[DNS].qd` (`none` = no question record);
`len` models `len(packet)`, `time` models `packet.time`. -/
structure PacketRecord where
  time : ℚ
  len : Nat
  hasIP : Bool
  hasTCP : Bool
  hasUDP : Bool
  hasICMP : Bool
  hasDNS : Bool
  hasARP : Bool
  src : String
  dst : String
  sport : Nat
  dport : Nat
  dnsQd : Option String
deriving DecidableEq

/-- The protocol tally dict `stats['protocols']` (a `defaultdict(int)`),
restricted to the six labels the code ever increments. -/
structure ProtoCounts where
  ipv4 : Nat
  tcp : Nat
  udp : Nat
  icmp : Nat
  dns : Nat
  arp : Nat
deriving DecidableEq

def ProtoCounts.zero : ProtoCounts := ⟨0, 0, 0, 0, 0, 0⟩

/-- One loop body of `PCAPAnalyzer._analyze` (lines 27–46), protocol
tallies only: `if IP in packet:` increments IPv4 and then exactly one of
TCP / UDP / ICMP via `if/elif/elif` nested inside that branch; the DNS and
ARP tests are separate top-level `if`s.  (The `tcp_streams` append inside
the TCP branch is modelled separately; no claim touches it.) -/
def countPacket (c : ProtoCounts) (p : PacketRecord) : ProtoCounts :=
  let c1 :=
    if p.hasIP then
      let cIP := { c with ipv4 := c.ipv4 + 1 }
      if p.hasTCP then { cIP with tcp := cIP.tcp + 1 }
      else if p.hasUDP then { cIP with udp := cIP.udp + 1 }
      else if p.hasICMP then { cIP with icmp := cIP.icmp + 1 }
      else cIP
    else c
  let c2 := if p.hasDNS then { c1 with dns := c1.dns + 1 } else c1
  if p.hasARP then { c2 with arp := c2.arp + 1 } else c2

/-- The protocol tallies accumulated over the whole packet list by
`_analyze`'s `for packet in self.packets` loop. -/
def protocolsOf (ps : List PacketRecord) : ProtoCounts :=
  ps.foldl countPacket ProtoCounts.zero

/-- The `stats['dns_queries']` list built by `_analyze`: inside the
`if DNS in packet:` branch, `if packet[DNS].qd:` appends the query name. -/
def dns_queries (ps : List PacketRecord) : List String :=
  ps.filterMap fun p => if p.hasDNS then p.dnsQd else none

/-- Last packet of `p :: ps` (that is, `packets[-1]` of a nonempty
capture). -/
def lastPacket (p : PacketRecord) : List PacketRecord → PacketRecord
  | [] => p
  | q :: qs => lastPacket q qs

/-- Method `_get_duration` (lines 50–54): `0` for an empty capture, else
`packets[-1].time - packets[0].time` (positional, not sorted). -/
def duration : List PacketRecord → ℚ
  | [] => 0
  | p :: ps => (lastPacket p ps).time - p.time

/-- Field `stats['total_packets']`: `len(self.packets)`. -/
def total_packets (ps : List PacketRecord) : Nat := ps.length

/-- Field `stats['packet_size_bytes']`: `sum(len(p) for p in self.packets)`. -/
def packet_size_bytes (ps : List PacketRecord) : Nat :=
  (ps.map PacketRecord.len).sum

end PCAPAnalyzer

/-- Python's built-in `round` on an exact value: round half to even
(banker's rounding), which is what CPython's `round` implements. -/
def pythonRound (q : ℚ) : ℤ :=
  if q - (⌊q⌋ : ℚ) < 1 / 2 then ⌊q⌋
  else if 1 / 2 < q - (⌊q⌋ : ℚ) then ⌊q⌋ + 1
  else if ⌊q⌋ % 2 = 0 then ⌊q⌋ else ⌊q⌋ + 1

/-- Helper for `dedupFirst`: drop every element already seen, keep the
first occurrence of each new one. -/
def dedupFirstAux {α : Type} [DecidableEq α] (seen : List α) :
    List α → List α
  | [] => []
  | x :: xs =>
      if x ∈ seen then dedupFirstAux seen xs
      else x :: dedupFirstAux (x :: seen) xs

/-- First-occurrence deduplication: the order-preserving reading of
"the first K distinct entries" / "record created on first sighting" used
by the specification. -/
def dedupFirst {α : Type} [DecidableEq α] (l : List α) : List α :=
  dedupFirstAux [] l

namespace PCAPAnalyzer

/-- The `packets_per_second` entry of `get_summary` (lines 61–63):
`round(total_packets / max(duration_seconds, 1))`. -/
def packets_per_second (ps : List PacketRecord) : ℤ :=
  pythonRound ((total_packets ps : ℚ) / max (duration ps) 1)

/-- The `unique_dns_queries` entry of `get_summary` (line 66):
`len(set(dns_queries))`, i.e. the number of distinct collected names. -/
def unique_dns_queries (ps : List PacketRecord) : Nat :=
  (dns_queries ps).dedup.length

/-- One entry of the `conversations` defaultdict of `get_conversations`:
the formatted `"src → dst"` key with its `packets`/`bytes` counters. -/
structure Conv where
  key : String
  packets : Nat
  bytes : Nat
deriving DecidableEq

/-- The conversation key built at line 86: `f"{src} → {dst}"`. -/
def convKey (p : PacketRecord) : String :=
  p.src ++ " → " ++ p.dst

/-- Update of the `conversations` dict for one IPv4 packet:
`conversations[conv_key]['packets'] += 1; ... ['bytes'] += len(packet)`.
A Python dict keeps an updated key at its original position and appends a
new key at the end, which is exactly this association-list update. -/
def bumpConv : List Conv → String → Nat → List Conv
  | [], k, n => [⟨k, 1, n⟩]
  | c :: cs, k, n =>
      if c.key = k then ⟨c.key, c.packets + 1, c.bytes + n⟩ :: cs
      else c :: bumpConv cs k n

/-- One loop body of `get_conversations` (lines 82–88): packets without an
IPv4 layer are skipped entirely. -/
def convStep (acc : List Conv) (p : PacketRecord) : List Conv :=
  if p.hasIP then bumpConv acc (convKey p) p.len else acc

/-- The fully accumulated `conversations` dict, in insertion order. -/
def conversations (ps : List PacketRecord) : List Conv :=
  ps.foldl convStep []

/-- The ordering used by `sorted(..., key=lambda x: x[1]['bytes'],
reverse=True)`: descending byte count. -/
def convGe (a b : Conv) : Prop := b.bytes ≤ a.bytes

instance : DecidableRel convGe := fun a b => Nat.decLe b.bytes a.bytes

instance : IsTotal Conv convGe := ⟨fun a b => Nat.le_total b.bytes a.bytes⟩

instance : IsTrans Conv convGe := ⟨fun _ _ _ hab hbc => hbc.trans hab⟩

/-- Method `get_conversations` (lines 78–94): accumulate per directed
`(src, dst)` pair, stable-sort by bytes descending, keep the first
`limit` entries.  Python's `sorted` is a stable sort, and a stable sort's
output is determined by the key order plus stability, so the insertion
sort used here produces the identical list. -/
def get_conversations (ps : List PacketRecord) (limit : Nat) : List Conv :=
  ((conversations ps).insertionSort convGe).take limit

/-- Call of `get_conversations` with its default argument `limit=10`. -/
def get_conversations_default (ps : List PacketRecord) : List Conv :=
  get_conversations ps 10

/-- Characterisation of what `list(set(xs))` may produce in Python: some
duplicate-free enumeration of exactly the distinct elements of `xs`.  Set
iteration order is unspecified (hash order), so the model quantifies over
every such enumeration instead of fixing one. -/
def SetList (xs enum : List String) : Prop :=
  enum.Nodup ∧ (∀ s ∈ enum, s ∈ xs) ∧ (∀ s ∈ xs, s ∈ enum)

instance (xs enum : List String) : Decidable (SetList xs enum) := by
  unfold SetList; infer_instance

/-- The `dns_queries` entry of `export_json` (line 104):
`list(set(...))[:20]`, applied to an enumeration of the query-name set. -/
def export_dns_queries (enum : List String) : List String :=
  enum.take 20

end PCAPAnalyzer

namespace Scanner

/-- One answered ARP reply as `discover_hosts_arp` reads it:
`element[1].psrc` and `element[1].hwsrc`. -/
structure ArpReply where
  psrc : String
  hwsrc : String
deriving DecidableEq

/-- One nmap ping-sweep result as `discover_hosts_icmp` reads it: the host
address, `nm[host].hostname()` (empty string when unresolved, which Python
treats as falsy) and `nm[host].state()`. -/
structure IcmpHost where
  ip : String
  hostname : String
  state : String
deriving DecidableEq

/-- A discovery `host_info` dict.  ARP entries carry `mac` and no
`hostname` key; ICMP entries carry `hostname` and no `mac` key; `Option`
models key presence. -/
structure HostInfo where
  ip : String
  mac : Option String
  hostname : Option String
  discovered_at : String
  method : String
deriving DecidableEq

/-- Method `NetworkScanner.discover_hosts_arp` (lines 47–77).  The scapy
`srp` call is the input: on an exception the `except` clause leaves
`discovered_hosts` empty; on success each answered reply becomes a dict
`{ip, mac, discovered_at, method:'ARP'}`. -/
def discover_hosts_arp (r : Except String (List ArpReply)) (now : String) :
    List HostInfo :=
  match r with
  | .error _ => []
  | .ok answered =>
      answered.map fun a =>
        { ip := a.psrc, mac := some a.hwsrc, hostname := none,
          discovered_at := now, method := "ARP" }

/-- Method `NetworkScanner.discover_hosts_icmp` (lines 79–105).  The nmap
ping sweep is the input; hosts whose state is `'up'` become dicts
`{ip, hostname, discovered_at, method:'ICMP'}`, with `'Unknown'`
substituted for a falsy (empty) hostname. -/
def discover_hosts_icmp (r : Except String (List IcmpHost)) (now : String) :
    List HostInfo :=
  match r with
  | .error _ => []
  | .ok hosts =>
      (hosts.filter fun h => h.state = "up").map fun h =>
        { ip := h.ip, mac := none,
          hostname := some (if h.hostname = "" then "Unknown" else h.hostname),
          discovered_at := now, method := "ICMP" }

/-- One row of nmap port-scan output as `scan_ports` reads it:
`nm[host][proto][port]` with its `state` and the optional
`name`/`version`/`product` keys read through `.get(_, 'unknown')`. -/
structure NmapEntry where
  port : Nat
  protocol : String
  state : String
  name : Option String
  version : Option String
  product : Option String
deriving DecidableEq

/-- A `service_info` dict (lines 130–137). -/
structure ServiceInfo where
  port : Nat
  protocol : String
  state : String
  service : String
  version : String
  product : String
deriving DecidableEq

/-- The `port_info` dict built by `scan_ports` (lines 113–118).  The
source creates it with exactly the keys `host`, `scan_time`, `open_ports`
and `services` and never adds an `error` key on any path; the `error`
field models that (absent) key and therefore stays `none`. -/
structure PortInfo where
  host : String
  scan_time : String
  open_ports : List Nat
  services : List ServiceInfo
  error : Option String
deriving DecidableEq

/-- Method `NetworkScanner.scan_ports` (lines 107–145).  The nmap call is
the input: on an exception the `except` clause returns `port_info` as
initialised (a host absent from `nm.all_hosts()` likewise contributes no
entries and is the same as `.ok []`); on success every entry with
`state == 'open'` appends its port and a `service_info` row. -/
def scan_ports (host : String) (now : String)
    (r : Except String (List NmapEntry)) : PortInfo :=
  let port_info : PortInfo :=
    { host := host, scan_time := now, open_ports := [], services := [],
      error := none }
  match r with
  | .error _ => port_info
  | .ok entries =>
      entries.foldl
        (fun info e =>
          if e.state = "open" then
            { info with
              open_ports := info.open_ports ++ [e.port],
              services := info.services ++
                [{ port := e.port, protocol := e.protocol, state := e.state,
                   service := e.name.getD "unknown",
                   version := e.version.getD "unknown",
                   product := e.product.getD "unknown" }] }
          else info)
        port_info

/-- A host entry of the snapshot: the discovery `host_info` dict after
`host_info['port_scan'] = port_scan` (line 296). -/
structure HostEntry where
  info : HostInfo
  port_scan : PortInfo
deriving DecidableEq

/-- The `scan_results['summary']` dict (lines 274–278). -/
structure ScanSummary where
  total_hosts : Nat
  total_open_ports : Nat
  total_services : Nat
deriving DecidableEq

/-- The `scan_results` dict of `full_network_scan` (lines 269–279); the
`end_time` key is only added at line 304, hence `Option`. -/
structure ScanResults where
  scan_id : String
  start_time : String
  networks_scanned : List String
  hosts : List HostEntry
  summary : ScanSummary
  end_time : Option String
deriving DecidableEq

/-- Python dict assignment `d[k] = v` on an association list: the first
entry with key `k` is updated in place, a fresh key is appended. -/
def dictInsert (d : List (String × HostInfo)) (k : String) (v : HostInfo) :
    List (String × HostInfo) :=
  match d with
  | [] => [(k, v)]
  | (k0, v0) :: rest =>
      if k0 = k then (k0, v) :: rest else (k0, v0) :: dictInsert rest k v

/-- The merge at line 290: `{h['ip']: h for h in arp_hosts + icmp_hosts}`,
a left-to-right sequence of dict insertions into an empty dict. -/
def buildAllHosts (hs : List HostInfo) : List (String × HostInfo) :=
  hs.foldl (fun d h => dictInsert d h.ip h) []

/-- First-match association lookup (Python `d[k]`). -/
def lookupIp (d : List (String × HostInfo)) (k : String) : Option HostInfo :=
  match d with
  | [] => none
  | (k0, v0) :: rest => if k0 = k then some v0 else lookupIp rest k

/-- The body of the `for ip, host_info in all_hosts.items()` loop
(lines 293–302): scan the host's ports, attach the result, append the
entry and bump the three summary counters. -/
def scanHostStep (portP : String → Except String (List NmapEntry))
    (now : String) (res : ScanResults) (kv : String × HostInfo) :
    ScanResults :=
  let port_scan := scan_ports kv.1 now (portP kv.1)
  { res with
    hosts := res.hosts ++ [⟨kv.2, port_scan⟩],
    summary :=
      ⟨res.summary.total_hosts + 1,
       res.summary.total_open_ports + port_scan.open_ports.length,
       res.summary.total_services + port_scan.services.length⟩ }

/-- The body of the `for network in self.networks` loop (lines 282–302):
run both discovery providers, merge, then port-scan every merged host. -/
def scanNetworkStep (arpP : String → Except String (List ArpReply))
    (icmpP : String → Except String (List IcmpHost))
    (portP : String → Except String (List NmapEntry))
    (now : String) (res : ScanResults) (network : String) : ScanResults :=
  let arp_hosts := discover_hosts_arp (arpP network) now
  let icmp_hosts := discover_hosts_icmp (icmpP network) now
  let all_hosts := buildAllHosts (arp_hosts ++ icmp_hosts)
  all_hosts.foldl (scanHostStep portP now) res

/-- The `scan_results` dict as initialised at lines 269–279: empty host
list, zeroed summary, `scan_id`/`start_time` from the clock, no
`end_time` key yet. -/
def initResults (networks : List String) (now : String) : ScanResults :=
  { scan_id := now, start_time := now, networks_scanned := networks,
    hosts := [], summary := ⟨0, 0, 0⟩, end_time := none }

/-- Method `NetworkScanner.full_network_scan` (lines 262–315) as a
function of the configured networks, the three providers and the
timestamp: fold the per-network step over the configured networks and
finally add the `end_time` key.  (The `json.dump` to disk and the log
lines are I/O outside the returned value.) -/
def full_network_scan (networks : List String)
    (arpP : String → Except String (List ArpReply))
    (icmpP : String → Except String (List IcmpHost))
    (portP : String → Except String (List NmapEntry))
    (now : String) : ScanResults :=
  { networks.foldl (scanNetworkStep arpP icmpP portP now)
      (initResults networks now) with
    end_time := some now }

end Scanner

namespace Sched

/-- What one iteration of the `while True` loop in `main` (lines 333–343)
runs into: the scan call returns normally, the scan call raises an
ordinary `Exception`, or a `KeyboardInterrupt` arrives. -/
inductive IterOutcome where
  | ok
  | err
  | interrupt
deriving DecidableEq

/-- Observable events of the loop: the normal-cadence sleep, a scan
attempt, a completed scan, the backoff sleep of the generic `except`
clause, and the `break` of the `KeyboardInterrupt` clause. -/
inductive SchedEvent where
  | sleepNormal (seconds : Nat)
  | scanStart
  | scanDone
  | errBackoff (seconds : Nat)
  | shutdown
deriving DecidableEq

/-- `scan_interval = 300` (line 329). -/
def scanInterval : Nat := 300

/-- The backoff `time.sleep(60)` of the generic except clause (line 343). -/
def backoffInterval : Nat := 60

/-- The scheduler loop of `main` (lines 333–343): each iteration sleeps
the normal interval, then attempts a scan; an ordinary exception is
caught at the iteration boundary and followed by the backoff sleep, after
which the loop continues; `KeyboardInterrupt` breaks the loop. -/
def scanLoop : List IterOutcome → List SchedEvent
  | [] => []
  | .ok :: rest =>
      .sleepNormal scanInterval :: .scanStart :: .scanDone :: scanLoop rest
  | .err :: rest =>
      .sleepNormal scanInterval :: .scanStart ::
        .errBackoff backoffInterval :: scanLoop rest
  | .interrupt :: _ => [.shutdown]

end Sched

/-! ## Sample inputs used by the claim theorems -/

namespace PCAPAnalyzer

/-- Sample packet with the IPv4 and TCP layers present (and no others). -/
def ipv4TcpPacket : PacketRecord :=
  { time := 0, len := 60, hasIP := true, hasTCP := true, hasUDP := false,
    hasICMP := false, hasDNS := false, hasARP := false, src := "10.0.1.2",
    dst := "10.0.1.3", sport := 40000, dport := 80, dnsQd := none }

/-- Sample packet carrying a TCP layer but no IPv4 layer (as scapy decodes
a TCP-over-IPv6 frame: `IP in packet` is false, `TCP in packet` is true). -/
def tcpNoIpPacket : PacketRecord :=
  { time := 0, len := 80, hasIP := false, hasTCP := true, hasUDP := false,
    hasICMP := false, hasDNS := false, hasARP := false, src := "", dst := "",
    sport := 40000, dport := 80, dnsQd := none }

/-- Sample pure ARP frame: no IPv4 layer. -/
def pureArpPacket : PacketRecord :=
  { time := 0, len := 42, hasIP := false, hasTCP := false, hasUDP := false,
    hasICMP := false, hasDNS := false, hasARP := true, src := "", dst := "",
    sport := 0, dport := 0, dnsQd := none }

/-- Ten identical packets all captured at the same instant (duration 0). -/
def tenPackets : List PacketRecord :=
  [ipv4TcpPacket, ipv4TcpPacket, ipv4TcpPacket, ipv4TcpPacket,
   ipv4TcpPacket, ipv4TcpPacket, ipv4TcpPacket, ipv4TcpPacket,
   ipv4TcpPacket, ipv4TcpPacket]

/-- Plain IPv4 packet from `s` to `d` of `n` bytes. -/
def ipPkt (s d : String) (n : Nat) : PacketRecord :=
  { time := 0, len := n, hasIP := true, hasTCP := false, hasUDP := false,
    hasICMP := false, hasDNS := false, hasARP := false, src := s, dst := d,
    sport := 0, dport := 0, dnsQd := none }

/-- The ranking example of the claims: conversation `10.0.0.1 → 10.0.0.2`
with 3 packets and 500 bytes in total, conversation `10.0.0.3 → 10.0.0.4`
with 2 packets and 1000 bytes in total. -/
def exPackets : List PacketRecord :=
  [ipPkt "10.0.0.1" "10.0.0.2" 100, ipPkt "10.0.0.1" "10.0.0.2" 200,
   ipPkt "10.0.0.3" "10.0.0.4" 500, ipPkt "10.0.0.1" "10.0.0.2" 200,
   ipPkt "10.0.0.3" "10.0.0.4" 500]

/-- Two conversations with equal byte counts (a ranking tie). -/
def tiePackets : List PacketRecord :=
  [ipPkt "10.0.0.1" "10.0.0.2" 300, ipPkt "10.0.0.3" "10.0.0.4" 300]

/-- A packet carrying a DNS question for `name`. -/
def dnsPacket (name : String) : PacketRecord :=
  { time := 0, len := 70, hasIP := true, hasTCP := false, hasUDP := true,
    hasICMP := false, hasDNS := true, hasARP := false, src := "10.0.0.9",
    dst := "10.0.0.53", sport := 5353, dport := 53, dnsQd := some name }

/-- The DNS-dedup example of the claims: queries a.com, a.com, b.com. -/
def abbPackets : List PacketRecord :=
  [dnsPacket "a.com", dnsPacket "a.com", dnsPacket "b.com"]

/-- Twenty-one distinct query names, in capture order. -/
def dnsNames21 : List String :=
  ["a", "b", "c", "d", "e", "f", "g", "h", "i", "j", "k", "l", "m", "n",
   "o", "p", "q", "r", "s", "t", "u"]

/-- A capture asking each of the 21 names once. -/
def dnsPkts21 : List PacketRecord := dnsNames21.map dnsPacket

/-- A legitimate set enumeration of those 21 names that happens to come
out in reverse order. -/
def revEnum21 : List String := dnsNames21.reverse

end PCAPAnalyzer

namespace Scanner

/-- Discovery providers of the field-fill example: ARP sees
`{ip:10.0.1.5, mac:"aa:bb"}`, ICMP sees `{ip:10.0.1.5, hostname:"host1"}`. -/
def cexArpP : String → Except String (List ArpReply) :=
  fun _ => Except.ok [⟨"10.0.1.5", "aa:bb"⟩]

def cexIcmpP : String → Except String (List IcmpHost) :=
  fun _ => Except.ok [⟨"10.0.1.5", "host1", "up"⟩]

def emptyPortP : String → Except String (List NmapEntry) :=
  fun _ => Except.ok []

/-- Full scan over one network with the ARP/ICMP observations above. -/
def cexScan : ScanResults :=
  full_network_scan ["10.0.1.0/24"] cexArpP cexIcmpP emptyPortP "t0"

/-- Three ARP-discovered hosts. -/
def threeArpP : String → Except String (List ArpReply) :=
  fun _ =>
    Except.ok [⟨"10.0.9.1", "aa:aa"⟩, ⟨"10.0.9.2", "bb:bb"⟩,
               ⟨"10.0.9.3", "cc:cc"⟩]

def noneIcmpP : String → Except String (List IcmpHost) :=
  fun _ => Except.ok []

/-- Port-scan provider that fails for exactly one of the three hosts. -/
def oneFailPortP : String → Except String (List NmapEntry) :=
  fun ip =>
    if ip = "10.0.9.2" then Except.error "port scan timed out"
    else Except.ok [⟨22, "tcp", "open", some "ssh", some "8.9",
                     some "OpenSSH"⟩]

/-- Full scan in which the port-scan provider fails for 1 of 3 hosts. -/
def threeHostScan : ScanResults :=
  full_network_scan ["10.0.9.0/24"] threeArpP noneIcmpP oneFailPortP "t1"

/-- Providers that always fail. -/
def failArpP : String → Except String (List ArpReply) :=
  fun _ => Except.error "arp timeout"

def failIcmpP : String → Except String (List IcmpHost) :=
  fun _ => Except.error "icmp sweep failed"

def failPortP : String → Except String (List NmapEntry) :=
  fun _ => Except.error "nmap failed"

/-- Total open-port count of a host list:
`Σ len(host.port_scan.open_ports)`. -/
def hostsOpenPorts (hs : List HostEntry) : Nat :=
  (hs.map fun h => h.port_scan.open_ports.length).sum

/-- Total service count of a host list:
`Σ len(host.port_scan.services)`. -/
def hostsServices (hs : List HostEntry) : Nat :=
  (hs.map fun h => h.port_scan.services.length).sum

/-- The summary invariant of a snapshot: the three counters agree with
the host list they summarise. -/
def SummaryOk (res : ScanResults) : Prop :=
  res.summary.total_hosts = res.hosts.length
  ∧ res.summary.total_open_ports = hostsOpenPorts res.hosts
  ∧ res.summary.total_services = hostsServices res.hosts

end Scanner

/-! ## Helper lemmas -/

theorem pythonRound_nearest (q : ℚ) : |(pythonRound q : ℚ) - q| ≤ 1 / 2 := by
  have h0 : (⌊q⌋ : ℚ) ≤ q := Int.floor_le q
  have h1 : q < (⌊q⌋ : ℚ) + 1 := Int.lt_floor_add_one q
  unfold pythonRound
  split_ifs with h2 h3 h4 <;> push_cast <;> rw [abs_le] <;>
    constructor <;> linarith

theorem pythonRound_intCast (n : ℤ) : pythonRound (n : ℚ) = n := by
  unfold pythonRound
  rw [Int.floor_intCast]
  simp only [sub_self]
  norm_num

theorem mem_dedupFirstAux {α : Type} [DecidableEq α] (l : List α)
    (seen : List α) (a : α) :
    a ∈ dedupFirstAux seen l ↔ a ∈ l ∧ a ∉ seen := by
  induction l generalizing seen with
  | nil => simp [dedupFirstAux]
  | cons x xs ih =>
    unfold dedupFirstAux
    split_ifs with hx
    · rw [ih]
      constructor
      · rintro ⟨hm, hs⟩
        exact ⟨List.mem_cons_of_mem _ hm, hs⟩
      · rintro ⟨hm, hs⟩
        rcases List.mem_cons.mp hm with rfl | hm
        · exact absurd hx hs
        · exact ⟨hm, hs⟩
    · constructor
      · intro h
        rcases List.mem_cons.mp h with rfl | h
        · exact ⟨List.mem_cons_self _ _, hx⟩
        · obtain ⟨hm, hs⟩ := (ih _).mp h
          exact ⟨List.mem_cons_of_mem _ hm,
            fun hc => hs (List.mem_cons_of_mem _ hc)⟩
      · rintro ⟨ha, hs⟩
        rcases List.mem_cons.mp ha with rfl | ha
        · exact List.mem_cons_self _ _
        · by_cases hax : a = x
          · exact hax ▸ List.mem_cons_self _ _
          · refine List.mem_cons_of_mem _ ((ih _).mpr ⟨ha, fun hc => ?hc⟩)
            rcases List.mem_cons.mp hc with h1 | h1
            · exact hax h1
            · exact hs h1

theorem nodup_dedupFirstAux {α : Type} [DecidableEq α] (l : List α)
    (seen : List α) : (dedupFirstAux seen l).Nodup := by
  induction l generalizing seen with
  | nil => simp [dedupFirstAux]
  | cons x xs ih =>
    by_cases hx : x ∈ seen
    · simpa [dedupFirstAux, if_pos hx] using ih seen
    · simp only [dedupFirstAux, if_neg hx, List.nodup_cons]
      refine ⟨fun hc => ?hc, ih _⟩
      exact ((mem_dedupFirstAux _ _ _).mp hc).2 (List.mem_cons_self _ _)

theorem mem_dedupFirst {α : Type} [DecidableEq α] (l : List α) (a : α) :
    a ∈ dedupFirst l ↔ a ∈ l := by
  simp [dedupFirst, mem_dedupFirstAux]

theorem nodup_dedupFirst {α : Type} [DecidableEq α] (l : List α) :
    (dedupFirst l).Nodup :=
  nodup_dedupFirstAux l []

namespace PCAPAnalyzer

theorem countPacket_ipv4 (c : ProtoCounts) (p : PacketRecord) :
    (countPacket c p).ipv4 = c.ipv4 + (if p.hasIP then 1 else 0) := by
  cases hip : p.hasIP <;> cases ht : p.hasTCP <;> cases hu : p.hasUDP <;>
    cases hi : p.hasICMP <;> cases hd : p.hasDNS <;> cases ha : p.hasARP <;>
      simp [countPacket, hip, ht, hu, hi, hd, ha]

theorem countPacket_tcp (c : ProtoCounts) (p : PacketRecord) :
    (countPacket c p).tcp
      = c.tcp + (if p.hasIP ∧ p.hasTCP then 1 else 0) := by
  cases hip : p.hasIP <;> cases ht : p.hasTCP <;> cases hu : p.hasUDP <;>
    cases hi : p.hasICMP <;> cases hd : p.hasDNS <;> cases ha : p.hasARP <;>
      simp [countPacket, hip, ht, hu, hi, hd, ha]

theorem countPacket_udp (c : ProtoCounts) (p : PacketRecord) :
    (countPacket c p).udp
      = c.udp + (if p.hasIP ∧ ¬p.hasTCP ∧ p.hasUDP then 1 else 0) := by
  cases hip : p.hasIP <;> cases ht : p.hasTCP <;> cases hu : p.hasUDP <;>
    cases hi : p.hasICMP <;> cases hd : p.hasDNS <;> cases ha : p.hasARP <;>
      simp [countPacket, hip, ht, hu, hi, hd, ha]

theorem countPacket_icmp (c : ProtoCounts) (p : PacketRecord) :
    (countPacket c p).icmp
      = c.icmp
        + (if p.hasIP ∧ ¬p.hasTCP ∧ ¬p.hasUDP ∧ p.hasICMP then 1 else 0) := by
  cases hip : p.hasIP <;> cases ht : p.hasTCP <;> cases hu : p.hasUDP <;>
    cases hi : p.hasICMP <;> cases hd : p.hasDNS <;> cases ha : p.hasARP <;>
      simp [countPacket, hip, ht, hu, hi, hd, ha]

theorem countPacket_dns (c : ProtoCounts) (p : PacketRecord) :
    (countPacket c p).dns = c.dns + (if p.hasDNS then 1 else 0) := by
  cases hip : p.hasIP <;> cases ht : p.hasTCP <;> cases hu : p.hasUDP <;>
    cases hi : p.hasICMP <;> cases hd : p.hasDNS <;> cases ha : p.hasARP <;>
      simp [countPacket, hip, ht, hu, hi, hd, ha]

theorem countPacket_arp (c : ProtoCounts) (p : PacketRecord) :
    (countPacket c p).arp = c.arp + (if p.hasARP then 1 else 0) := by
  cases hip : p.hasIP <;> cases ht : p.hasTCP <;> cases hu : p.hasUDP <;>
    cases hi : p.hasICMP <;> cases hd : p.hasDNS <;> cases ha : p.hasARP <;>
      simp [countPacket, hip, ht, hu, hi, hd, ha]

end PCAPAnalyzer

theorem length_eq_of_nodup_mem {α : Type} {l₁ l₂ : List α}
    (h₁ : l₁.Nodup) (h₂ : l₂.Nodup) (h : ∀ a, a ∈ l₁ ↔ a ∈ l₂) :
    l₁.length = l₂.length :=
  ((List.perm_ext_iff_of_nodup h₁ h₂).mpr h).length_eq

theorem dedupFirstAux_congr {α : Type} [DecidableEq α] (l : List α)
    (s₁ s₂ : List α) (h : ∀ a, a ∈ s₁ ↔ a ∈ s₂) :
    dedupFirstAux s₁ l = dedupFirstAux s₂ l := by
  induction l generalizing s₁ s₂ with
  | nil => rfl
  | cons x xs ih =>
    unfold dedupFirstAux
    by_cases hx : x ∈ s₁
    · rw [if_pos hx, if_pos ((h x).mp hx)]
      exact ih _ _ h
    · rw [if_neg hx, if_neg (fun hc => hx ((h x).mpr hc))]
      rw [ih (x :: s₁) (x :: s₂) (by intro a; simp [List.mem_cons, h a])]

theorem dedupFirstAux_cons {α : Type} [DecidableEq α] (seen : List α)
    (x : α) (xs : List α) :
    dedupFirstAux seen (x :: xs)
      = if x ∈ seen then dedupFirstAux seen xs
        else x :: dedupFirstAux (x :: seen) xs := rfl

theorem getLast?_cons_or {α : Type} (a : α) (l : List α) :
    (a :: l).getLast? = l.getLast?.or (some a) := by
  induction l generalizing a with
  | nil => rfl
  | cons b l ih =>
    rw [List.getLast?_cons_cons, ih b, Option.or_assoc]
    rfl

namespace Sched

theorem scanLoop_append (pre rest : List IterOutcome)
    (h : IterOutcome.interrupt ∉ pre) :
    scanLoop (pre ++ rest) = scanLoop pre ++ scanLoop rest := by
  induction pre with
  | nil => simp [scanLoop]
  | cons o pre ih =>
    have ho : o ≠ IterOutcome.interrupt :=
      fun ho => h (ho ▸ List.mem_cons_self _ _)
    have h' : IterOutcome.interrupt ∉ pre :=
      fun hm => h (List.mem_cons_of_mem _ hm)
    cases o with
    | ok => simp [scanLoop, ih h']
    | err => simp [scanLoop, ih h']
    | interrupt => exact absurd rfl ho

end Sched

namespace PCAPAnalyzer

theorem foldl_convStep_no_ip (ps : List PacketRecord) (acc : List Conv)
    (h : ∀ q ∈ ps, q.hasIP = false) : ps.foldl convStep acc = acc := by
  induction ps generalizing acc with
  | nil => rfl
  | cons p ps ih =>
    have hp : p.hasIP = false := h p (List.mem_cons_self _ _)
    rw [List.foldl_cons]
    have hstep : convStep acc p = acc := by simp [convStep, hp]
    rw [hstep]
    exact ih _ fun q hq => h q (List.mem_cons_of_mem _ hq)

end PCAPAnalyzer

namespace Scanner

theorem lookupIp_dictInsert_self (d : List (String × HostInfo))
    (k : String) (v : HostInfo) :
    lookupIp (dictInsert d k v) k = some v := by
  induction d with
  | nil => simp [dictInsert, lookupIp]
  | cons kv d ih =>
    obtain ⟨k0, v0⟩ := kv
    by_cases hk : k0 = k
    · subst hk
      simp [dictInsert, lookupIp]
    · simp [dictInsert, lookupIp, hk, ih]

theorem lookupIp_dictInsert_ne (d : List (String × HostInfo))
    (k : String) (v : HostInfo) (k' : String) (h : k ≠ k') :
    lookupIp (dictInsert d k v) k' = lookupIp d k' := by
  induction d with
  | nil => simp [dictInsert, lookupIp, h]
  | cons kv d ih =>
    obtain ⟨k0, v0⟩ := kv
    by_cases hk : k0 = k
    · subst hk
      simp [dictInsert, lookupIp, h]
    · simp [dictInsert, lookupIp, hk, ih]

theorem lookupIp_buildAux (hs : List HostInfo)
    (d : List (String × HostInfo)) (ip : String) :
    lookupIp (hs.foldl (fun d h => dictInsert d h.ip h) d) ip
      = ((hs.filter fun h => h.ip = ip).getLast?).or (lookupIp d ip) := by
  induction hs generalizing d with
  | nil => simp
  | cons h hs ih =>
    rw [List.foldl_cons, ih]
    by_cases hip : h.ip = ip
    · rw [List.filter_cons_of_pos (by simpa using hip)]
      rw [getLast?_cons_or, Option.or_assoc]
      have hself : lookupIp (dictInsert d h.ip h) ip = some h := by
        rw [← hip]; exact lookupIp_dictInsert_self d h.ip h
      rw [hself]
      rfl
    · rw [List.filter_cons_of_neg (by simpa using hip)]
      rw [lookupIp_dictInsert_ne d h.ip h ip hip]

theorem keys_dictInsert (d : List (String × HostInfo)) (k : String)
    (v : HostInfo) :
    (dictInsert d k v).map Prod.fst
      = if k ∈ d.map Prod.fst then d.map Prod.fst
        else d.map Prod.fst ++ [k] := by
  induction d with
  | nil => simp [dictInsert]
  | cons kv d ih =>
    obtain ⟨k0, v0⟩ := kv
    by_cases hk : k0 = k
    · subst hk
      simp [dictInsert]
    · have hk' : ¬k = k0 := fun h => hk h.symm
      simp only [dictInsert, if_neg hk, List.map_cons, ih, List.mem_cons]
      by_cases hm : k ∈ d.map Prod.fst
      · simp [hm, hk']
      · simp [hm, hk']

theorem keys_buildAux (hs : List HostInfo) (d : List (String × HostInfo)) :
    (hs.foldl (fun d h => dictInsert d h.ip h) d).map Prod.fst
      = d.map Prod.fst
        ++ dedupFirstAux (d.map Prod.fst) (hs.map HostInfo.ip) := by
  induction hs generalizing d with
  | nil => simp [dedupFirstAux]
  | cons h hs ih =>
    rw [List.foldl_cons, ih, List.map_cons, dedupFirstAux_cons]
    by_cases hm : h.ip ∈ d.map Prod.fst
    · rw [if_pos hm, keys_dictInsert, if_pos hm]
    · rw [if_neg hm, keys_dictInsert, if_neg hm]
      rw [dedupFirstAux_congr (hs.map HostInfo.ip)
            ((d.map Prod.fst) ++ [h.ip]) (h.ip :: d.map Prod.fst)
            (by intro a; simp [List.mem_append, List.mem_cons, or_comm])]
      simp [List.append_assoc]

end Scanner

namespace Scanner

theorem summaryOk_scanHostStep
    (portP : String → Except String (List NmapEntry)) (now : String)
    (res : ScanResults) (kv : String × HostInfo) (h : SummaryOk res) :
    SummaryOk (scanHostStep portP now res kv) := by
  obtain ⟨h1, h2, h3⟩ := h
  unfold SummaryOk scanHostStep hostsOpenPorts hostsServices at *
  simp only [List.map_append, List.sum_append, List.length_append,
    List.map_cons, List.map_nil, List.sum_cons, List.sum_nil,
    List.length_cons, List.length_nil]
  omega

theorem summaryOk_foldl_hosts
    (portP : String → Except String (List NmapEntry)) (now : String)
    (l : List (String × HostInfo)) (res : ScanResults)
    (h : SummaryOk res) :
    SummaryOk (l.foldl (scanHostStep portP now) res) := by
  induction l generalizing res with
  | nil => exact h
  | cons kv l ih =>
    rw [List.foldl_cons]
    exact ih _ (summaryOk_scanHostStep portP now res kv h)

theorem summaryOk_scanNetworkStep
    (arpP : String → Except String (List ArpReply))
    (icmpP : String → Except String (List IcmpHost))
    (portP : String → Except String (List NmapEntry)) (now : String)
    (res : ScanResults) (network : String) (h : SummaryOk res) :
    SummaryOk (scanNetworkStep arpP icmpP portP now res network) :=
  summaryOk_foldl_hosts portP now _ res h

theorem summaryOk_foldl_networks
    (arpP : String → Except String (List ArpReply))
    (icmpP : String → Except String (List IcmpHost))
    (portP : String → Except String (List NmapEntry)) (now : String)
    (networks : List String) (res : ScanResults) (h : SummaryOk res) :
    SummaryOk (networks.foldl (scanNetworkStep arpP icmpP portP now) res) := by
  induction networks generalizing res with
  | nil => exact h
  | cons n ns ih =>
    rw [List.foldl_cons]
    exact ih _ (summaryOk_scanNetworkStep arpP icmpP portP now res n h)

theorem fields_foldl_hosts
    (portP : String → Except String (List NmapEntry)) (now : String)
    (l : List (String × HostInfo)) (res : ScanResults) :
    (l.foldl (scanHostStep portP now) res).scan_id = res.scan_id
  ∧ (l.foldl (scanHostStep portP now) res).start_time = res.start_time
  ∧ (l.foldl (scanHostStep portP now) res).networks_scanned
      = res.networks_scanned
  ∧ (l.foldl (scanHostStep portP now) res).end_time = res.end_time := by
  induction l generalizing res with
  | nil => exact ⟨rfl, rfl, rfl, rfl⟩
  | cons kv l ih =>
    rw [List.foldl_cons]
    exact ih _

theorem fields_foldl_networks
    (arpP : String → Except String (List ArpReply))
    (icmpP : String → Except String (List IcmpHost))
    (portP : String → Except String (List NmapEntry)) (now : String)
    (networks : List String) (res : ScanResults) :
    (networks.foldl (scanNetworkStep arpP icmpP portP now) res).scan_id
      = res.scan_id
  ∧ (networks.foldl (scanNetworkStep arpP icmpP portP now) res).start_time
      = res.start_time
  ∧ (networks.foldl
        (scanNetworkStep arpP icmpP portP now) res).networks_scanned
      = res.networks_scanned
  ∧ (networks.foldl (scanNetworkStep arpP icmpP portP now) res).end_time
      = res.end_time := by
  induction networks generalizing res with
  | nil => exact ⟨rfl, rfl, rfl, rfl⟩
  | cons n ns ih =>
    rw [List.foldl_cons]
    obtain ⟨h1, h2, h3, h4⟩ :=
      ih (scanNetworkStep arpP icmpP portP now res n)
    obtain ⟨g1, g2, g3, g4⟩ := fields_foldl_hosts portP now _ res
    exact ⟨h1.trans g1, h2.trans g2, h3.trans g3, h4.trans g4⟩

theorem scanNetworkStep_fail
    (arpP : String → Except String (List ArpReply))
    (icmpP : String → Except String (List IcmpHost))
    (portP : String → Except String (List NmapEntry)) (now : String)
    (res : ScanResults) (n : String)
    (ha : ∃ e, arpP n = Except.error e)
    (hi : ∃ e, icmpP n = Except.error e) :
    scanNetworkStep arpP icmpP portP now res n = res := by
  obtain ⟨e1, h1⟩ := ha
  obtain ⟨e2, h2⟩ := hi
  unfold scanNetworkStep discover_hosts_arp discover_hosts_icmp
  rw [h1, h2]
  rfl

theorem foldl_networks_fail
    (arpP : String → Except String (List ArpReply))
    (icmpP : String → Except String (List IcmpHost))
    (portP : String → Except String (List NmapEntry)) (now : String)
    (networks : List String) (res : ScanResults)
    (ha : ∀ n, ∃ e, arpP n = Except.error e)
    (hi : ∀ n, ∃ e, icmpP n = Except.error e) :
    networks.foldl (scanNetworkStep arpP icmpP portP now) res = res := by
  induction networks with
  | nil => rfl
  | cons n ns ih =>
    rw [List.foldl_cons,
      scanNetworkStep_fail arpP icmpP portP now res n (ha n) (hi n), ih]

end Scanner

/-! ## Claims -/

namespace PCAPAnalyzer

/-- C5: protocol classification.  For every packet, IPv4 is incremented
exactly when the IPv4 flag is set; the L4 precedence step — TCP, then
UDP, then ICMP, mutually exclusive, first flag present wins — applies to
packets carrying the IPv4 flag (in the source it is nested inside the
IPv4 branch, matching the claim's contrast with DNS and ARP, which are
incremented independently whenever their flags are set); a packet
without the IPv4 flag leaves the three L4 tallies unchanged.  In
particular a single IPv4+TCP packet yields
IPv4 += 1, TCP += 1, UDP += 0, ICMP += 0. -/
theorem C5_protocol_classification (c : ProtoCounts) (p : PacketRecord) :
    (countPacket c p).ipv4 = c.ipv4 + (if p.hasIP then 1 else 0)
  ∧ (countPacket c p).tcp = c.tcp + (if p.hasIP ∧ p.hasTCP then 1 else 0)
  ∧ (countPacket c p).udp
      = c.udp + (if p.hasIP ∧ ¬p.hasTCP ∧ p.hasUDP then 1 else 0)
  ∧ (countPacket c p).icmp
      = c.icmp
        + (if p.hasIP ∧ ¬p.hasTCP ∧ ¬p.hasUDP ∧ p.hasICMP then 1 else 0)
  ∧ (countPacket c p).dns = c.dns + (if p.hasDNS then 1 else 0)
  ∧ (countPacket c p).arp = c.arp + (if p.hasARP then 1 else 0)
  ∧ protocolsOf [ipv4TcpPacket] = ⟨1, 1, 0, 0, 0, 0⟩ :=
  ⟨countPacket_ipv4 c p, countPacket_tcp c p, countPacket_udp c p,
   countPacket_icmp c p, countPacket_dns c p, countPacket_arp c p, rfl⟩

/-- C9: the packets-per-second rate is computed as
`round(totalPackets / max(duration, 1))`: the divisor is at least 1 and
never zero (also for zero or negative durations), and the reported rate
is within 1/2 of the exact quotient (nearest-integer rounding; Python
rounds halves to even).  Ten packets at duration 0 give rate exactly 10. -/
theorem C9_rate_guarded_division (ps : List PacketRecord) :
    (1 : ℚ) ≤ max (duration ps) 1
  ∧ max (duration ps) 1 ≠ 0
  ∧ packets_per_second ps
      = pythonRound ((total_packets ps : ℚ) / max (duration ps) 1)
  ∧ |(packets_per_second ps : ℚ)
        - (total_packets ps : ℚ) / max (duration ps) 1| ≤ 1 / 2
  ∧ duration tenPackets = 0
  ∧ packets_per_second tenPackets = 10 := by
  have hd : duration tenPackets = 0 := by
    show (0 : ℚ) - 0 = 0
    norm_num
  refine ⟨le_max_right _ _,
    ne_of_gt (lt_of_lt_of_le zero_lt_one (le_max_right _ _)), rfl,
    pythonRound_nearest _, hd, ?h6⟩
  show pythonRound
      ((total_packets tenPackets : ℚ) / max (duration tenPackets) 1) = 10
  have ht : (total_packets tenPackets : ℚ) = ((10 : ℤ) : ℚ) := by
    norm_num [total_packets, tenPackets]
  rw [hd, ht, max_eq_right (by norm_num : (0 : ℚ) ≤ 1), div_one]
  exact pythonRound_intCast 10

/-- C10 (implicit): conversation aggregation only sees IPv4 packets — a
packet without the IPv4 layer leaves the accumulator untouched, a capture
whose packets all lack IPv4 yields no conversation entries and an empty
top-conversations list for every limit, and concretely a capture of two
pure ARP frames produces an empty list for every limit. -/
theorem C10_conversations_need_ipv4
    (ps : List PacketRecord) (limit : Nat) (acc : List Conv)
    (p : PacketRecord) :
    (p.hasIP = false → convStep acc p = acc)
  ∧ ((∀ q ∈ ps, q.hasIP = false)
      → conversations ps = [] ∧ get_conversations ps limit = [])
  ∧ get_conversations [pureArpPacket, pureArpPacket] limit = [] := by
  refine ⟨fun hp => by simp [convStep, hp], fun h => ?hh, ?hc⟩
  · have hc : conversations ps = [] := foldl_convStep_no_ip ps [] h
    refine ⟨hc, ?ht⟩
    show ((conversations ps).insertionSort convGe).take limit = []
    rw [hc]
    simp
  · show ((conversations [pureArpPacket, pureArpPacket]).insertionSort
      convGe).take limit = []
    have hc : conversations [pureArpPacket, pureArpPacket] = [] := rfl
    rw [hc]
    simp

/-- Witness for C10 at concrete inputs: a pure ARP frame is skipped, and
a two-ARP-frame capture yields no conversations at limit 3. -/
theorem C10_witness :
    convStep [] pureArpPacket = []
  ∧ conversations [pureArpPacket, pureArpPacket] = []
  ∧ get_conversations [pureArpPacket, pureArpPacket] 3 = [] :=
  ⟨(C10_conversations_need_ipv4 [] 0 [] pureArpPacket).1 rfl,
   ((C10_conversations_need_ipv4 [pureArpPacket, pureArpPacket] 0 []
       pureArpPacket).2.1 (by decide)).1,
   (C10_conversations_need_ipv4 [pureArpPacket, pureArpPacket] 3 []
       pureArpPacket).2.2⟩

end PCAPAnalyzer

namespace Sched

/-- C8: an ordinary exception raised by the orchestrator call inside one
iteration of the scheduler loop is caught at the iteration boundary: the
loop emits that iteration's normal-interval sleep and scan attempt, then
the 60-second backoff sleep — strictly shorter than the 300-second scan
interval — and then processes the remaining iterations exactly as it
otherwise would, so the following iteration still runs (the last two
conjuncts unfold one ok or err iteration).  A single failing iteration
never terminates the loop; only KeyboardInterrupt does. -/
theorem C8_scheduler_survives_error (pre post : List IterOutcome)
    (h : IterOutcome.interrupt ∉ pre) :
    scanLoop (pre ++ IterOutcome.err :: post)
      = scanLoop pre
        ++ SchedEvent.sleepNormal scanInterval :: SchedEvent.scanStart
          :: SchedEvent.errBackoff backoffInterval :: scanLoop post
  ∧ backoffInterval < scanInterval
  ∧ (∀ rest, scanLoop (IterOutcome.ok :: rest)
      = SchedEvent.sleepNormal scanInterval :: SchedEvent.scanStart
        :: SchedEvent.scanDone :: scanLoop rest)
  ∧ (∀ rest, scanLoop (IterOutcome.err :: rest)
      = SchedEvent.sleepNormal scanInterval :: SchedEvent.scanStart
        :: SchedEvent.errBackoff backoffInterval :: scanLoop rest) := by
  refine ⟨?he, by decide, fun rest => rfl, fun rest => rfl⟩
  rw [scanLoop_append pre (IterOutcome.err :: post) h]
  rfl

/-- Witness for C8 at a concrete run: iterations ok, err, ok. -/
theorem C8_witness :
    scanLoop ([IterOutcome.ok] ++ IterOutcome.err :: [IterOutcome.ok])
      = scanLoop [IterOutcome.ok]
        ++ SchedEvent.sleepNormal scanInterval :: SchedEvent.scanStart
          :: SchedEvent.errBackoff backoffInterval
          :: scanLoop [IterOutcome.ok]
  ∧ backoffInterval < scanInterval :=
  ⟨(C8_scheduler_survives_error [IterOutcome.ok] [IterOutcome.ok]
      (by decide)).1,
   (C8_scheduler_survives_error [IterOutcome.ok] [IterOutcome.ok]
      (by decide)).2.1⟩

end Sched

namespace Scanner

/-- C3: for every snapshot produced by `full_network_scan`,
`summary.total_hosts` equals the length of the hosts sequence,
`summary.total_open_ports` equals the sum over all hosts of the length
of their port scan's open-port list, and `summary.total_services` the
sum of the service-list lengths. -/
theorem C3_summary_invariant (networks : List String)
    (arpP : String → Except String (List ArpReply))
    (icmpP : String → Except String (List IcmpHost))
    (portP : String → Except String (List NmapEntry)) (now : String) :
    (full_network_scan networks arpP icmpP portP now).summary.total_hosts
      = (full_network_scan networks arpP icmpP portP now).hosts.length
  ∧ (full_network_scan networks arpP icmpP portP
        now).summary.total_open_ports
      = hostsOpenPorts (full_network_scan networks arpP icmpP portP
          now).hosts
  ∧ (full_network_scan networks arpP icmpP portP
        now).summary.total_services
      = hostsServices (full_network_scan networks arpP icmpP portP
          now).hosts :=
  summaryOk_foldl_networks arpP icmpP portP now networks
    (initResults networks now) ⟨rfl, rfl, rfl⟩

/-- C4: the full scan is a total function of the provider behaviours —
it always returns a complete snapshot, with the scan id, start time,
configured network list and end time all filled in, whatever the
providers do; and when every discovery provider fails on every network
the snapshot has an empty host list and all three summary counters are
zero. -/
theorem C4_snapshot_always_produced (networks : List String)
    (arpP : String → Except String (List ArpReply))
    (icmpP : String → Except String (List IcmpHost))
    (portP : String → Except String (List NmapEntry)) (now : String) :
    ((full_network_scan networks arpP icmpP portP now).scan_id = now
   ∧ (full_network_scan networks arpP icmpP portP now).start_time = now
   ∧ (full_network_scan networks arpP icmpP portP now).networks_scanned
       = networks
   ∧ (full_network_scan networks arpP icmpP portP now).end_time
       = some now)
  ∧ ((∀ n, ∃ e, arpP n = Except.error e)
      → (∀ n, ∃ e, icmpP n = Except.error e)
      → (full_network_scan networks arpP icmpP portP now).hosts = []
      ∧ (full_network_scan networks arpP icmpP portP now).summary
          = ⟨0, 0, 0⟩) := by
  constructor
  · obtain ⟨h1, h2, h3, h4⟩ :=
      fields_foldl_networks arpP icmpP portP now networks
        (initResults networks now)
    exact ⟨h1, h2, h3, rfl⟩
  · intro ha hi
    have hfold :=
      foldl_networks_fail arpP icmpP portP now networks
        (initResults networks now) ha hi
    constructor
    · show (networks.foldl (scanNetworkStep arpP icmpP portP now)
          (initResults networks now)).hosts = []
      rw [hfold]
      rfl
    · show (networks.foldl (scanNetworkStep arpP icmpP portP now)
          (initResults networks now)).summary = ⟨0, 0, 0⟩
      rw [hfold]
      rfl

/-- Witness for C4: every provider fails on both configured networks,
and the snapshot still comes back with no hosts and an all-zero summary. -/
theorem C4_witness :
    (full_network_scan ["10.0.1.0/24", "10.0.2.0/24"] failArpP failIcmpP
        failPortP "t2").hosts = []
  ∧ (full_network_scan ["10.0.1.0/24", "10.0.2.0/24"] failArpP failIcmpP
        failPortP "t2").summary = ⟨0, 0, 0⟩ :=
  (C4_snapshot_always_produced ["10.0.1.0/24", "10.0.2.0/24"] failArpP
      failIcmpP failPortP "t2").2
    (fun _ => ⟨"arp timeout", rfl⟩)
    (fun _ => ⟨"icmp sweep failed", rfl⟩)

/-- C2 counterexample: at the concrete failing provider call of the 1-of-3
scenario, `scan_ports` returns its dict with the `error` key still absent
(modelled as `none`) — the claim's "its error field is set" is false on
the code, which never writes an `error` key. -/
theorem C2_counterexample :
    (scan_ports "10.0.9.2" "t1"
        (Except.error "port scan timed out")).error = none
  ∧ ¬ (scan_ports "10.0.9.2" "t1"
        (Except.error "port scan timed out")).error.isSome := by
  exact ⟨rfl, by decide⟩

/-- C2 amended: for every failing provider call the port-scan result has
empty `open_ports` and `services` lists and no `error` field is written
(it stays absent), and the result is still attached to the host's entry:
in the concrete scan where the provider fails for exactly 1 of 3 hosts,
the snapshot still has all 3 host entries, `summary.total_hosts = 3`, no
entry carries an `error` value, and the failing middle host has empty
lists while the other two kept their scanned service. -/
theorem C2_port_scan_failure_isolation (host now e : String) :
    scan_ports host now (Except.error e) = ⟨host, now, [], [], none⟩
  ∧ threeHostScan.hosts.length = 3
  ∧ threeHostScan.summary.total_hosts = 3
  ∧ threeHostScan.hosts.map (fun h => h.info.ip)
      = ["10.0.9.1", "10.0.9.2", "10.0.9.3"]
  ∧ threeHostScan.hosts.map (fun h => h.port_scan.error)
      = [none, none, none]
  ∧ threeHostScan.hosts.map (fun h => h.port_scan.open_ports)
      = [[22], [], [22]]
  ∧ threeHostScan.hosts.map (fun h => h.port_scan.services.length)
      = [1, 0, 1] := by
  exact ⟨rfl, by decide, by decide, by decide, by decide, by decide,
    by decide⟩

/-- C1 counterexample: with the claim's own example — ARP observes
`{ip:10.0.1.5, mac:"aa:bb"}` and ICMP observes
`{ip:10.0.1.5, hostname:"host1"}`, in that provider order — the merged
record keeps only the ICMP dict: it has hostname "host1" but no mac key
at all, so no record carrying both fields exists. -/
theorem C1_counterexample :
    cexScan.hosts.map (fun h => (h.info.ip, h.info.mac, h.info.hostname))
      = [("10.0.1.5", none, some "host1")]
  ∧ ¬ ∃ h ∈ cexScan.hosts, h.info.mac = some "aa:bb" := by
  exact ⟨by decide, by decide⟩

/-- C1 amended: the merge keys records by ip and creates each record at
the position of that ip's first sighting (the merged key sequence is the
observed ip sequence deduplicated to first occurrences), but every later
observation of the same ip replaces the stored record wholesale — last
observation wins — rather than filling only unset fields; in the ARP/ICMP
example the merged record therefore carries hostname "host1" and no mac. -/
theorem C1_merge_last_writer_wins (hs : List HostInfo) (ip : String) :
    lookupIp (buildAllHosts hs) ip
      = (hs.filter fun h => h.ip = ip).getLast?
  ∧ (buildAllHosts hs).map Prod.fst = dedupFirst (hs.map HostInfo.ip)
  ∧ cexScan.hosts.map (fun h => (h.info.mac, h.info.hostname))
      = [(none, some "host1")] := by
  refine ⟨?l, keys_buildAux hs [], by decide⟩
  have h := lookupIp_buildAux hs [] ip
  rw [show lookupIp ([] : List (String × HostInfo)) ip = none from rfl,
    Option.or_none] at h
  exact h

end Scanner

namespace PCAPAnalyzer

/-- C6: `get_conversations` accumulates per ordered `(src, dst)` pair
(directions are kept apart) and returns the top `limit` conversations by
byte count: the caller-omitted limit defaults to 10 (first conjunct);
the returned list is sorted by byte count descending (second); every
returned entry has at least as many bytes as every entry it cut off
(third); equal-byte entries keep their first-seen relative order — the
sort is stable (fourth); every returned entry is an accumulated
conversation (fifth); and with A→B carrying 3 packets / 500 bytes and
C→D carrying 2 packets / 1000 bytes, limit 1 returns exactly [C→D]
(sixth). -/
theorem C6_top_conversations (ps : List PacketRecord) (limit : Nat) :
    get_conversations_default ps = get_conversations ps 10
  ∧ List.Sorted convGe (get_conversations ps limit)
  ∧ (∀ x ∈ get_conversations ps limit,
       ∀ y ∈ ((conversations ps).insertionSort convGe).drop limit,
         y.bytes ≤ x.bytes)
  ∧ (∀ a b : Conv, a.bytes = b.bytes
       → ([a, b].Sublist (conversations ps))
       → [a, b].Sublist ((conversations ps).insertionSort convGe))
  ∧ (∀ x ∈ get_conversations ps limit, x ∈ conversations ps)
  ∧ get_conversations exPackets 1 = [⟨"10.0.0.3 → 10.0.0.4", 2, 1000⟩] := by
  have hsorted :
      List.Sorted convGe ((conversations ps).insertionSort convGe) :=
    List.sorted_insertionSort convGe (conversations ps)
  refine ⟨rfl, ?s, ?t, ?st, ?m, by decide⟩
  · exact List.Pairwise.sublist (List.take_sublist limit _) hsorted
  · intro x hx y hy
    have hsp : List.Pairwise convGe
        (((conversations ps).insertionSort convGe).take limit
          ++ ((conversations ps).insertionSort convGe).drop limit) := by
      rw [List.take_append_drop]
      exact hsorted
    exact (List.pairwise_append.mp hsp).2.2 x hx y hy
  · intro a b hab hsub
    exact List.pair_sublist_insertionSort
      (show convGe a b from le_of_eq hab.symm) hsub
  · intro x hx
    exact (List.mem_insertionSort convGe).mp (List.mem_of_mem_take hx)

/-- Witness for C6: concrete instantiations of the conditional
conjuncts — the returned conversation of the ranking example is an
accumulated conversation, a concrete equal-byte pair stays in first-seen
order through the sort, and the cut-off entry of the ranking example has
no more bytes than the returned one. -/
theorem C6_witness :
    (⟨"10.0.0.3 → 10.0.0.4", 2, 1000⟩ : Conv) ∈ conversations exPackets
  ∧ [(⟨"10.0.0.1 → 10.0.0.2", 1, 300⟩ : Conv),
     (⟨"10.0.0.3 → 10.0.0.4", 1, 300⟩ : Conv)].Sublist
      ((conversations tiePackets).insertionSort convGe)
  ∧ (⟨"10.0.0.1 → 10.0.0.2", 3, 500⟩ : Conv).bytes
      ≤ (⟨"10.0.0.3 → 10.0.0.4", 2, 1000⟩ : Conv).bytes :=
  ⟨(C6_top_conversations exPackets 1).2.2.2.2.1 _ (by decide),
   (C6_top_conversations tiePackets 10).2.2.2.1 _ _ (by decide)
     (by decide),
   (C6_top_conversations exPackets 1).2.2.1 _ (by decide) _ (by decide)⟩

/-- C7 counterexample: with 21 distinct query names, the reversed
enumeration is a legitimate outcome of iterating the Python set (set
iteration order is unspecified), and `list(set(...))[:20]` built from it
differs from the first 20 distinct names — so the code does not deliver
"specifically the first 20 distinct names". -/
theorem C7_counterexample :
    SetList (dns_queries dnsPkts21) revEnum21
  ∧ export_dns_queries revEnum21
      ≠ (dedupFirst (dns_queries dnsPkts21)).take 20 := by
  exact ⟨by decide, by decide⟩

/-- C7 amended: the unique-query count equals the number of distinct
collected names — the length of any duplicate-free enumeration of them,
equivalently of their first-occurrence dedup (first two conjuncts); the
exported raw list has at most 20 entries, all distinct and all observed
query names (next three) — but which 20 is whatever the unspecified set
enumeration yields, not necessarily the first 20 distinct; and queries
[a.com, a.com, b.com] give unique count 2 (last). -/
theorem C7_dns_dedup_and_truncation (ps : List PacketRecord)
    (enum : List String) (h : SetList (dns_queries ps) enum) :
    unique_dns_queries ps = enum.length
  ∧ unique_dns_queries ps = (dedupFirst (dns_queries ps)).length
  ∧ (export_dns_queries enum).length ≤ 20
  ∧ (export_dns_queries enum).Nodup
  ∧ (∀ s ∈ export_dns_queries enum, s ∈ dns_queries ps)
  ∧ unique_dns_queries abbPackets = 2 := by
  obtain ⟨hn, hone, htwo⟩ := h
  refine ⟨?a, ?b, ?c, ?d, ?e, by decide⟩
  · exact length_eq_of_nodup_mem (List.nodup_dedup _) hn fun a =>
      ⟨fun ha => htwo a (List.mem_dedup.mp ha),
       fun ha => List.mem_dedup.mpr (hone a ha)⟩
  · exact length_eq_of_nodup_mem (List.nodup_dedup _)
      (nodup_dedupFirst _) fun a => by
        rw [List.mem_dedup, mem_dedupFirst]
  · show (enum.take 20).length ≤ 20
    rw [List.length_take]
    exact min_le_left _ _
  · exact (List.take_sublist _ _).nodup hn
  · intro s hs
    exact hone s (List.mem_of_mem_take hs)

/-- Witness for C7 at a concrete input: the a.com/a.com/b.com capture
with its (here: insertion-ordered) two-element set enumeration. -/
theorem C7_witness :
    SetList (dns_queries abbPackets) ["a.com", "b.com"]
  ∧ unique_dns_queries abbPackets = 2
  ∧ (export_dns_queries ["a.com", "b.com"]).length ≤ 20 :=
  ⟨by decide,
   (C7_dns_dedup_and_truncation abbPackets ["a.com", "b.com"]
      (by decide)).2.2.2.2.2,
   (C7_dns_dedup_and_truncation abbPackets ["a.com", "b.com"]
      (by decide)).2.2.1⟩

end PCAPAnalyzer
